import Mathlib

/-!
Verification of the family-outings spot service against its specification.

The development shallowly embeds the two logic-bearing parts of the code:

* `src/batch/fetch_spots.py` — the ingestion pipeline (record normalization,
  deduplication, per-source fetch orchestration).  Python's dynamic values are
  modelled by the `PyVal` type and fallible Python code by `Except PyErr`.
* `src/backend/app/store.py` — the spot filter engine (`list_spots`), the
  haversine distance function, and the favorites operations
  (`seed_spots`/`add_favorite`), with the SQLAlchemy session modelled as an
  explicit `DBState` value.

Machine floats are modelled as exact numbers: rationals where values are only
stored and compared for equality, and real numbers for the trigonometric
distance computation.
-/

/-! ## Python value model -/

/-- A dynamic (duck-typed) Python value as it appears in raw source records.
Floats are modelled as rationals. -/
inductive PyVal where
  | none
  | bool (b : Bool)
  | int (n : Int)
  | float (q : ℚ)
  | str (s : String)
  | list (xs : List PyVal)

/-- Python truthiness (`bool(v)`): `None`, `False`, `0`, `""` and `[]` are
falsy, everything else is truthy. -/
def py_truthy : PyVal → Bool
  | .none => false
  | .bool b => b
  | .int n => n != 0
  | .float q => q != 0
  | .str s => !s.isEmpty
  | .list xs => !xs.isEmpty

/-- Python `str.upper()` (ASCII model of the case mapping). -/
def pyUpper (s : String) : String := ⟨s.data.map Char.toUpper⟩

/-- Python `str.lower()` (ASCII model of the case mapping). -/
def pyLower (s : String) : String := ⟨s.data.map Char.toLower⟩

/-- Python `str.strip()`: remove leading and trailing whitespace. -/
def pyStrip (s : String) : String :=
  ⟨((s.data.dropWhile Char.isWhitespace).reverse.dropWhile Char.isWhitespace).reverse⟩

/-- `startsWithChars hay needle`: `hay` begins with `needle`. -/
def startsWithChars : List Char → List Char → Bool
  | _, [] => true
  | [], _ :: _ => false
  | c :: cs, d :: ds => c == d && startsWithChars cs ds

/-- `containsChars needle hay`: `needle` occurs contiguously in `hay`. -/
def containsChars (needle : List Char) : List Char → Bool
  | [] => startsWithChars [] needle
  | c :: t => startsWithChars (c :: t) needle || containsChars needle t

/-- Python's substring test `needle in hay`. -/
def pyContains (hay needle : String) : Bool := containsChars needle.data hay.data

/-- Code-point-wise lexicographic `≤` on character lists (Python's string
ordering). -/
def leChars : List Char → List Char → Bool
  | [], _ => true
  | _ :: _, [] => false
  | c :: cs, d :: ds =>
    if c.toNat < d.toNat then true
    else if d.toNat < c.toNat then false
    else leChars cs ds

/-- Python's string `≤`. -/
def leString (a b : String) : Bool := leChars a.data b.data

/-- Insert a string into a `leString`-sorted list. -/
def insertSorted (s : String) : List String → List String
  | [] => [s]
  | t :: ts => if leString s t then s :: t :: ts else t :: insertSorted s ts

/-- Insertion sort by `leString`; models Python `sorted` on strings. -/
def sortStrings : List String → List String
  | [] => []
  | s :: ss => insertSorted s (sortStrings ss)

/-- Remove duplicates keeping the first occurrence of each string; together
with `sortStrings` this models Python's `sorted(set(...))`. -/
def dedupFirstAux (seen : List String) : List String → List String
  | [] => []
  | s :: ss =>
    if seen.contains s then dedupFirstAux seen ss
    else s :: dedupFirstAux (s :: seen) ss

/-- Remove duplicate strings, first occurrence wins. -/
def dedupFirst (l : List String) : List String := dedupFirstAux [] l

/-- Python `str(v)` as used in the id-synthesizing f-string of
`normalize_record`.  The conversion of non-string values is abbreviated
(float and list reprs are not spelled out); no claim inspects an id
synthesized from a non-string name. -/
def pyFormat : PyVal → String
  | .str s => s
  | .int n => toString n
  | .float _ => "<float>"
  | .bool b => if b then "True" else "False"
  | .none => "None"
  | .list _ => "<list>"

/-- The exception outcomes relevant to the batch pipeline. -/
inductive PyErr where
  | typeError
  | attributeError
  | otherError (msg : String)
deriving DecidableEq

/-! ## Batch pipeline (`src/batch/fetch_spots.py`) -/

/-- The `SpotRecord` dataclass.  Fields the normalizer passes through
unchanged keep the dynamic `PyVal` type (the dataclass does not enforce its
annotations); `cost_range` and `tags` are produced by the normalizers and
`source`/`last_seen` by the pipeline itself, so they are typed. -/
structure SpotRecord where
  id : PyVal
  name : PyVal
  address : PyVal
  summary : PyVal
  lat : PyVal
  lng : PyVal
  official_url : PyVal
  cost_range : Option String
  age_min : PyVal
  age_max : PyVal
  tags : List String
  images : PyVal
  hours : PyVal
  source : String
  last_seen : String

/-- The `allowed` set of `normalize_cost_range`. -/
def allowedCost : List String := ["FREE", "U500", "U1000", "U3000", "OVER3000"]

/-- `normalize_cost_range(value)`: falsy input gives `None`; a string is
upper-cased and kept only when in the allowed enumeration; a truthy
non-string raises `AttributeError` at `value.upper()`. -/
def normalize_cost_range (v : PyVal) : Except PyErr (Option String) :=
  if py_truthy v = false then .ok none
  else
    match v with
    | .str s => .ok (if allowedCost.contains (pyUpper s) then some (pyUpper s) else none)
    | _ => .error .attributeError

/-- `t.strip()` on a dynamic value: raises `AttributeError` unless `t` is a
string. -/
def toStrE (v : PyVal) : Except PyErr String :=
  match v with
  | .str s => .ok s
  | _ => .error .attributeError

/-- Evaluate `t.strip()`-readiness of every element left to right: the list
of the strings, or the first `AttributeError`. -/
def allStrE : List PyVal → Except PyErr (List String)
  | [] => .ok []
  | v :: vs =>
    match toStrE v with
    | .error e => .error e
    | .ok s =>
      match allStrE vs with
      | .error e => .error e
      | .ok ss => .ok (s :: ss)

/-- `normalize_tags(tags)` = `sorted({t.strip() for t in tags if t.strip()})`.
Iterating a list visits its elements (each must be a string, else
`AttributeError` at `.strip()`); iterating a string visits its characters;
iterating any other value raises `TypeError`. -/
def normalize_tags (v : PyVal) : Except PyErr (List String) :=
  match v with
  | .list xs =>
    match allStrE xs with
    | .error e => .error e
    | .ok ss => .ok (sortStrings (dedupFirst ((ss.map pyStrip).filter (fun t => !t.isEmpty))))
  | .str s =>
      .ok (sortStrings (dedupFirst
        (((s.data.map (fun c => String.mk [c])).map pyStrip).filter (fun t => !t.isEmpty))))
  | _ => .error .typeError

/-- A raw source record: a Python dict, modelled as an association list with
distinct keys. -/
abbrev RawDict := List (String × PyVal)

/-- Dict lookup returning the stored value if the key is present. -/
def dictFind (raw : RawDict) (k : String) : Option PyVal :=
  (raw.find? (fun kv => kv.1 == k)).map (fun kv => kv.2)

/-- Python `raw.get(k, d)`. -/
def dictGet (raw : RawDict) (k : String) (d : PyVal) : PyVal :=
  (dictFind raw k).getD d

/-- Python `raw.get(k)` (default `None`). -/
def dictGetN (raw : RawDict) (k : String) : PyVal := dictGet raw k .none

/-- `normalize_record(raw, source)`.  The wall clock read
(`datetime.utcnow().isoformat() + "Z"`) is passed in explicitly as `now`.
The two subexpressions that can raise (`normalize_cost_range`,
`normalize_tags`) are evaluated in Python's argument order: `cost_range`
before `tags`; every other field passes through `raw.get` unchanged. -/
def normalize_record (raw : RawDict) (source : String) (now : String) :
    Except PyErr SpotRecord :=
  match normalize_cost_range (dictGetN raw "cost_range") with
  | .error e => .error e
  | .ok cost =>
  match normalize_tags (dictGet raw "tags" (.list [])) with
  | .error e => .error e
  | .ok tagsv =>
  Except.ok
    { id :=
        (let idv := dictGetN raw "id"
         if py_truthy idv then idv
         else .str (source ++ ":" ++ pyFormat (dictGet raw "name" (.str "unknown"))))
      name := dictGet raw "name" (.str "")
      address := dictGet raw "address" (.str "")
      summary := dictGet raw "summary" (.str "")
      lat := dictGetN raw "lat"
      lng := dictGetN raw "lng"
      official_url := dictGetN raw "official_url"
      cost_range := cost
      age_min := dictGetN raw "age_min"
      age_max := dictGetN raw "age_max"
      tags := tagsv
      images := dictGet raw "images" (.list [])
      hours := dictGetN raw "hours"
      source := source
      last_seen := now }

/-- `record.name.strip().lower()` on a dynamic field: the key component of
the dedup identity, raising `AttributeError` on a non-string field. -/
def strKey (v : PyVal) : Except PyErr String :=
  match v with
  | .str s => .ok (pyLower (pyStrip s))
  | _ => .error .attributeError

/-- The loop of `dedupe`, carrying the `seen` key set (the Python set is
modelled as the list of inserted keys; only membership is consumed). -/
def dedupeAux (seen : List (String × String)) :
    List SpotRecord → Except PyErr (List SpotRecord)
  | [] => .ok []
  | r :: rs =>
    match strKey r.name with
    | .error e => .error e
    | .ok kn =>
    match strKey r.address with
    | .error e => .error e
    | .ok ka =>
    if seen.contains (kn, ka) then dedupeAux seen rs
    else
      match dedupeAux ((kn, ka) :: seen) rs with
      | .error e => .error e
      | .ok rest => .ok (r :: rest)

/-- `dedupe(records)`: drop every record whose identity key
`(name.strip().lower(), address.strip().lower())` was already seen. -/
def dedupe (records : List SpotRecord) : Except PyErr (List SpotRecord) :=
  dedupeAux [] records

/-- An ingestion source: its `name` attribute and the outcome of calling
`fetch()` (a drained list of raw records, or the exception it raised). -/
structure SourceModel where
  name : String
  fetchResult : Except PyErr (List RawDict)

/-- Normalize every raw record of one source in order; the first raising
record aborts. -/
def normalizeAll (source now : String) : List RawDict → Except PyErr (List SpotRecord)
  | [] => .ok []
  | raw :: raws =>
    match normalize_record raw source now with
    | .error e => .error e
    | .ok r =>
      match normalizeAll source now raws with
      | .error e => .error e
      | .ok rs => .ok (r :: rs)

/-- The fetch-and-normalize loop of `run`: drain every source in order and
collect the normalized records.  Note the loop has no exception handling: a
raising `fetch` propagates. -/
def runNormalize (now : String) : List SourceModel → Except PyErr (List SpotRecord)
  | [] => .ok []
  | src :: rest =>
    match src.fetchResult with
    | .error e => .error e
    | .ok raws =>
      match normalizeAll src.name now raws with
      | .error e => .error e
      | .ok recs =>
        match runNormalize now rest with
        | .error e => .error e
        | .ok others => .ok (recs ++ others)

/-- The record-producing part of `run(sources, output_path)`: fetch and
normalize all sources, then dedupe the combined sequence.  The result is the
sequence handed to both `upsert_to_db` and `write_output` (external sinks). -/
def run (sources : List SourceModel) (now : String) :
    Except PyErr (List SpotRecord) :=
  match runNormalize now sources with
  | .error e => .error e
  | .ok normalized => dedupe normalized

/-- The single raw record served by `LocalSampleSource.fetch`. -/
def sampleRaw : RawDict :=
  [("id", .str "sample-park-1"),
   ("name", .str "Sample Park"),
   ("address", .str "Chiyoda-ku, Tokyo"),
   ("summary", .str "Playground and sandbox."),
   ("lat", .float 35.6895),
   ("lng", .float 139.6917),
   ("official_url", .none),
   ("cost_range", .str "FREE"),
   ("age_min", .int 0),
   ("age_max", .int 8),
   ("tags", .list [.str "Outdoor", .str "Stroller OK"]),
   ("images", .list []),
   ("hours", .str "9:00-17:00")]

/-- `LocalSampleSource`. -/
def localSampleSource : SourceModel :=
  { name := "local-sample", fetchResult := .ok [sampleRaw] }

/-- Modelled from the spec: §4.4's contract for the deduplicator, stated as
a recursive first-wins filter — keep the head record and drop every later
record sharing its identity key `(trim(name).lower(), trim(address).lower())`.
Used to compare the code's `dedupe` against the spec's words.  On the junk
case of a non-string field (outside the dataclass's declared types) the key
component defaults to `""`. -/
def specKeyOf (v : PyVal) : String :=
  match v with
  | .str s => pyLower (pyStrip s)
  | _ => ""

/-- The identity key of §4.4. -/
def specKey2 (r : SpotRecord) : String × String := (specKeyOf r.name, specKeyOf r.address)

/-- Modelled from the spec: first occurrence per identity key wins, later
duplicates are silently dropped, order is preserved. -/
def dedupeSpecFirstWins : List SpotRecord → List SpotRecord
  | [] => []
  | r :: rs =>
    r :: dedupeSpecFirstWins (rs.filter (fun r2 => !(specKey2 r2 == specKey2 r)))
termination_by l => l.length
decreasing_by
  simp only [List.length_cons]
  exact Nat.lt_succ_of_le (List.length_filter_le _ _)

/-! ## Distance calculator (`store._haversine_km`), over the reals -/

/-- `math.radians(x) = x * (pi / 180)`. -/
noncomputable def radians (x : ℝ) : ℝ := x * (Real.pi / 180)

open Classical in
/-- `math.atan2(y, x)`, over the reals (the signed-zero distinctions of IEEE
floats collapse). -/
noncomputable def atan2 (y x : ℝ) : ℝ :=
  if 0 < x then Real.arctan (y / x)
  else if x < 0 ∧ 0 ≤ y then Real.arctan (y / x) + Real.pi
  else if x < 0 ∧ y < 0 then Real.arctan (y / x) - Real.pi
  else if x = 0 ∧ 0 < y then Real.pi / 2
  else if x = 0 ∧ y < 0 then -(Real.pi / 2)
  else 0

/-- The intermediate `a` of `_haversine_km`. -/
noncomputable def hav_a (lat1 lng1 lat2 lng2 : ℝ) : ℝ :=
  Real.sin (radians (lat2 - lat1) / 2) ^ 2 +
    Real.cos (radians lat1) * Real.cos (radians lat2) *
      Real.sin (radians (lng2 - lng1) / 2) ^ 2

/-- `_haversine_km(lat1, lng1, lat2, lng2)` with Earth radius 6371.0 km. -/
noncomputable def haversine_km (lat1 lng1 lat2 lng2 : ℝ) : ℝ :=
  2 * 6371.0 *
    atan2 (Real.sqrt (hav_a lat1 lng1 lat2 lng2))
      (Real.sqrt (1 - hav_a lat1 lng1 lat2 lng2))

/-! ## Spot filter engine (`store.list_spots`) -/

/-- A stored spot row (`models.Spot` as read back by the scan; the JSON
`tags`/`images` columns always hold lists for rows written by this app).
Coordinates are exact rationals. -/
structure Spot where
  id : String
  name : String
  lat : ℚ
  lng : ℚ
  address : String
  summary : String
  official_url : Option String
  cost_range : Option String
  age_min : Option Int
  age_max : Option Int
  tags : List String
  images : List String
  hours : Option String
deriving DecidableEq

/-- The response-schema spot (`schemas.Spot`, no `hours`). -/
structure SpotOut where
  id : String
  name : String
  lat : ℚ
  lng : ℚ
  address : String
  summary : String
  official_url : Option String
  cost_range : Option String
  age_min : Option Int
  age_max : Option Int
  tags : List String
  images : List String
deriving DecidableEq

/-- `row.tags or []`: the identity on lists (the empty list is falsy and maps
to `[]`). -/
def orEmpty (l : List String) : List String := if l.isEmpty then [] else l

/-- `store._to_spot`. -/
def to_spot (row : Spot) : SpotOut :=
  { id := row.id, name := row.name, lat := row.lat, lng := row.lng
    address := row.address, summary := row.summary
    official_url := row.official_url, cost_range := row.cost_range
    age_min := row.age_min, age_max := row.age_max
    tags := orEmpty row.tags, images := orEmpty row.images }

/-- The keyword arguments of `store.list_spots`.  The route layer
(`routes/spots.py`) validates `radius_km ∈ [0.1, 50]`, `age ∈ [0, 18]`,
`limit ∈ [1, 100]` and `offset ≥ 0`, so `limit`/`offset` are naturals here. -/
structure Criteria where
  lat : Option ℚ
  lng : Option ℚ
  radius_km : ℚ
  q : Option String
  tags : Option (List String)
  age : Option Int
  cost_range : Option String
  limit : Nat
  offset : Nat

open Classical in
/-- The distance predicate `_haversine_km(lat, lng, s.lat, s.lng) <= radius_km`. -/
noncomputable def withinRadius (la ln radius : ℚ) (s : Spot) : Bool :=
  decide (haversine_km (la : ℝ) (ln : ℝ) (s.lat : ℝ) (s.lng : ℝ) ≤ (radius : ℝ))

/-- Filter 1: `if lat is not None and lng is not None: ...`. -/
noncomputable def distStage (c : Criteria) (items : List Spot) : List Spot :=
  match c.lat, c.lng with
  | some la, some ln => items.filter (withinRadius la ln c.radius_km)
  | _, _ => items

/-- The free-text predicate of filter 2 (`qn` is the lowered query). -/
def queryPred (q : String) (s : Spot) : Bool :=
  let qn := pyLower q
  pyContains (pyLower s.name) qn || pyContains (pyLower s.address) qn ||
    pyContains (pyLower s.summary) qn || s.tags.any (fun t => pyContains (pyLower t) qn)

/-- Filter 2: `if q: ...` (`None` and `""` are falsy). -/
def queryStage (c : Criteria) (items : List Spot) : List Spot :=
  match c.q with
  | some q => if q.isEmpty then items else items.filter (queryPred q)
  | none => items

/-- The tag predicate of filter 3: `not tags.isdisjoint(set(s.tags))`. -/
def tagsPred (ts : List String) (s : Spot) : Bool :=
  ts.any (fun t => s.tags.contains t)

/-- Filter 3: `if tags: ...` (`None` and the empty set are falsy). -/
def tagStage (c : Criteria) (items : List Spot) : List Spot :=
  match c.tags with
  | some ts => if ts.isEmpty then items else items.filter (tagsPred ts)
  | none => items

/-- The age predicate of filter 4. -/
def agePred (a : Int) (s : Spot) : Bool :=
  (match s.age_min with | none => true | some m => m ≤ a) &&
    (match s.age_max with | none => true | some M => a ≤ M)

/-- Filter 4: `if age is not None: ...`. -/
def ageStage (c : Criteria) (items : List Spot) : List Spot :=
  match c.age with
  | some a => items.filter (agePred a)
  | none => items

/-- The cost predicate of filter 5: `s.cost_range == cost_range`. -/
def costPred (cr : String) (s : Spot) : Bool := s.cost_range == some cr

/-- Filter 5: `if cost_range: ...` (`None` and `""` are falsy). -/
def costStage (c : Criteria) (items : List Spot) : List Spot :=
  match c.cost_range with
  | some cr => if cr.isEmpty then items else items.filter (costPred cr)
  | none => items

/-- The matched set of `list_spots`: the five filters applied in source
order, before pagination. -/
noncomputable def matched (c : Criteria) (spots : List Spot) : List Spot :=
  costStage c (ageStage c (tagStage c (queryStage c (distStage c spots))))

/-- `store.list_spots` after the DB scan: the five filters, then the slice
`[offset : offset + limit]`, then `_to_spot` on each row. -/
noncomputable def list_spots (c : Criteria) (spots : List Spot) : List SpotOut :=
  (((matched c spots).drop c.offset).take c.limit).map to_spot

/-- The five filter stages indexed 0–4 in source order (out-of-range indices
map to the last stage; permutation hypotheses rule them out). -/
noncomputable def stageOf (i : Nat) : Criteria → List Spot → List Spot :=
  match i with
  | 0 => distStage
  | 1 => queryStage
  | 2 => tagStage
  | 3 => ageStage
  | _ => costStage

/-- Apply the filter stages named by `l`, left to right. -/
noncomputable def applyStages (l : List Nat) (c : Criteria) (spots : List Spot) :
    List Spot :=
  l.foldl (fun acc i => stageOf i c acc) spots

/-! ## Favorites (`store.seed_spots` / `store.add_favorite`) -/

/-- The durable state: the `spots` table and the `favorites` rows
`(user_id, spot_id)`. -/
structure DBState where
  spots : List Spot
  favs : List (String × String)

/-- The first seeded row of `seed_spots`. -/
def seedSpot1 : Spot :=
  { id := "tokyo-park-1", name := "千代田こども公園"
    lat := 35.6895, lng := 139.6917
    address := "東京都千代田区", summary := "駅近の小さな公園。滑り台と砂場あり。"
    official_url := none, cost_range := some "FREE"
    age_min := some 0, age_max := some 8
    tags := ["屋外", "ベビーカーOK"], images := [], hours := some "9:00-17:00" }

/-- The second seeded row of `seed_spots`. -/
def seedSpot2 : Spot :=
  { id := "tokyo-museum-1", name := "科学体験ミュージアム"
    lat := 35.6852, lng := 139.7528
    address := "東京都千代田区", summary := "親子向け体験展示。雨の日にもおすすめ。"
    official_url := some "https://example.com", cost_range := some "U1000"
    age_min := some 3, age_max := some 12
    tags := ["屋内", "雨でもOK", "授乳室"], images := [], hours := some "10:00-18:00" }

/-- `store.seed_spots`: insert the two sample rows when the table is empty,
otherwise do nothing. -/
def seed_spots (db : DBState) : DBState :=
  if db.spots.isEmpty then { db with spots := [seedSpot1, seedSpot2] } else db

/-- `store.add_favorite(user_id, spot_id)`: seed, look the spot up by primary
key (`False` when absent), then insert the `(user_id, spot_id)` row unless it
already exists; returns the Python result paired with the post-state. -/
def add_favorite (user_id spot_id : String) (db : DBState) : Bool × DBState :=
  match (seed_spots db).spots.find? (fun sp => sp.id == spot_id) with
  | none => (false, seed_spots db)
  | some _ =>
    if (seed_spots db).favs.contains (user_id, spot_id) then (true, seed_spots db)
    else (true, { seed_spots db with
                    favs := (seed_spots db).favs ++ [(user_id, spot_id)] })

/-! ## Well-typedness side conditions for the normalizer arguments -/

/-- Is the dynamic value a string? -/
def isStrB : PyVal → Bool
  | .str _ => true
  | _ => false

/-- `normalize_cost_range` does not raise on this value: falsy, or a string. -/
def cost_arg_ok (v : PyVal) : Bool := !py_truthy v || isStrB v

/-- `normalize_tags` does not raise on this value: a list of strings, or a
string. -/
def tags_arg_ok : PyVal → Bool
  | .list xs => xs.all isStrB
  | .str _ => true
  | _ => false

lemma normalize_cost_range_ok (v : PyVal) (h : cost_arg_ok v = true) :
    ∃ c, normalize_cost_range v = .ok c := by
  cases hv : py_truthy v with
  | false => exact ⟨none, by simp [normalize_cost_range, hv]⟩
  | true =>
    unfold cost_arg_ok at h
    rw [hv] at h
    simp only [Bool.not_true, Bool.false_or] at h
    cases v with
    | str s =>
      exact ⟨if allowedCost.contains (pyUpper s) then some (pyUpper s) else none,
        by simp [normalize_cost_range, hv]⟩
    | none => simp [isStrB] at h
    | bool b => simp [isStrB] at h
    | int n => simp [isStrB] at h
    | float q => simp [isStrB] at h
    | list xs => simp [isStrB] at h

lemma allStrE_ok (xs : List PyVal) (h : xs.all isStrB = true) :
    ∃ l, allStrE xs = .ok l := by
  induction xs with
  | nil => exact ⟨[], rfl⟩
  | cons x t ih =>
    simp only [List.all_cons, Bool.and_eq_true] at h
    obtain ⟨l, hl⟩ := ih h.2
    cases x with
    | str s => exact ⟨s :: l, by simp [allStrE, toStrE, hl]⟩
    | none => simp [isStrB] at h
    | bool b => simp [isStrB] at h
    | int n => simp [isStrB] at h
    | float q => simp [isStrB] at h
    | list ys => simp [isStrB] at h

lemma normalize_tags_ok (v : PyVal) (h : tags_arg_ok v = true) :
    ∃ l, normalize_tags v = .ok l := by
  cases v with
  | str s => exact ⟨_, rfl⟩
  | list xs =>
    obtain ⟨l, hl⟩ := allStrE_ok xs h
    exact ⟨sortStrings (dedupFirst ((l.map pyStrip).filter (fun t => !t.isEmpty))),
      by simp [normalize_tags, hl]⟩
  | none => simp [tags_arg_ok] at h
  | bool b => simp [tags_arg_ok] at h
  | int n => simp [tags_arg_ok] at h
  | float q => simp [tags_arg_ok] at h

/-- C7: for every input string, cost-range canonicalization upper-cases the
value and returns it exactly when it lies in the allowed enumeration
`{FREE, U500, U1000, U3000, OVER3000}`; any other value, including the empty
string and an absent (`None`) value, normalizes to absent without raising.
In particular `"free"` maps to `"FREE"` and `"expensive"` to absent. -/
theorem cost_range_canonicalization :
    (∀ s : String, normalize_cost_range (.str s) =
      .ok (if allowedCost.contains (pyUpper s) then some (pyUpper s) else none)) ∧
    normalize_cost_range PyVal.none = .ok none ∧
    normalize_cost_range (.str "free") = .ok (some "FREE") ∧
    normalize_cost_range (.str "expensive") = .ok none := by
  refine ⟨?_, rfl, rfl, rfl⟩
  intro s
  cases hs : s.isEmpty with
  | true =>
    rw [(String.isEmpty_iff s).mp hs]
    rfl
  | false =>
    simp [normalize_cost_range, py_truthy, hs]

/-- C2 (counterexample): `normalize_record` does raise on ill-typed fields —
a truthy non-string `cost_range` raises `AttributeError` at `.upper()`, and a
non-iterable `tags` value raises `TypeError`. -/
theorem normalize_record_raises :
    normalize_record [("cost_range", PyVal.int 3)] "src" "now"
        = .error .attributeError ∧
    normalize_record [("tags", PyVal.int 0)] "src" "now" = .error .typeError := by
  exact ⟨rfl, rfl⟩

/-- C2 (amended): `normalize_record` returns a `SpotRecord` without raising
for every raw record whose `cost_range` value is falsy or a string and whose
`tags` value is a string or a list of strings (in particular whenever these
keys are absent); missing `name`/`address`/`summary` degrade to the empty
string and missing `tags`/`images` to empty sequences. -/
theorem normalize_record_well_typed_total :
    ∀ (raw : RawDict) (source now : String),
    cost_arg_ok (dictGetN raw "cost_range") = true →
    tags_arg_ok (dictGet raw "tags" (.list [])) = true →
    (normalize_record raw source now).isOk = true ∧
    (dictFind raw "name" = none →
      (normalize_record raw source now).map SpotRecord.name = .ok (.str "")) ∧
    (dictFind raw "address" = none →
      (normalize_record raw source now).map SpotRecord.address = .ok (.str "")) ∧
    (dictFind raw "summary" = none →
      (normalize_record raw source now).map SpotRecord.summary = .ok (.str "")) ∧
    (dictFind raw "tags" = none →
      (normalize_record raw source now).map SpotRecord.tags = .ok []) ∧
    (dictFind raw "images" = none →
      (normalize_record raw source now).map SpotRecord.images = .ok (.list [])) := by
  intro raw source now h1 h2
  obtain ⟨c, hc⟩ := normalize_cost_range_ok _ h1
  obtain ⟨l, hl⟩ := normalize_tags_ok _ h2
  have hrec : normalize_record raw source now = Except.ok
      { id :=
          (let idv := dictGetN raw "id"
           if py_truthy idv then idv
           else .str (source ++ ":" ++ pyFormat (dictGet raw "name" (.str "unknown"))))
        name := dictGet raw "name" (.str "")
        address := dictGet raw "address" (.str "")
        summary := dictGet raw "summary" (.str "")
        lat := dictGetN raw "lat"
        lng := dictGetN raw "lng"
        official_url := dictGetN raw "official_url"
        cost_range := c
        age_min := dictGetN raw "age_min"
        age_max := dictGetN raw "age_max"
        tags := l
        images := dictGet raw "images" (.list [])
        hours := dictGetN raw "hours"
        source := source
        last_seen := now } := by
    unfold normalize_record
    rw [hc, hl]
  refine ⟨by rw [hrec]; rfl, ?_, ?_, ?_, ?_, ?_⟩
  · intro hn; rw [hrec]; simp [Except.map, dictGet, hn]
  · intro hn; rw [hrec]; simp [Except.map, dictGet, hn]
  · intro hn; rw [hrec]; simp [Except.map, dictGet, hn]
  · intro hn
    have harg : dictGet raw "tags" (.list []) = .list [] := by simp [dictGet, hn]
    rw [harg] at hl
    have h0 : normalize_tags (.list []) = .ok ([] : List String) := rfl
    rw [h0] at hl
    injection hl with hl
    rw [hrec]
    simp [Except.map, ← hl]
  · intro hn; rw [hrec]; simp [Except.map, dictGet, hn]

/-- C2 (witness): the empty raw record satisfies both well-typedness side
conditions, and on it `normalize_record` succeeds. -/
theorem normalize_record_well_typed_total_witness :
    (normalize_record [] "src" "now").isOk = true :=
  (normalize_record_well_typed_total [] "src" "now" (by decide) (by decide)).1

/-- C9 (counterexample): the normalizer performs no ordering check on the age
bounds — a raw record with `age_min = 5` and `age_max = 2` yields a
`SpotRecord` carrying both bounds with `age_min > age_max`. -/
theorem age_bounds_counterexample :
    (normalize_record [("age_min", PyVal.int 5), ("age_max", PyVal.int 2)] "s" "t").map
        (fun r => (r.age_min, r.age_max)) = .ok (PyVal.int 5, PyVal.int 2) ∧
    ¬ ((5 : Int) ≤ 2) := by
  exact ⟨rfl, by decide⟩

/-- C9 (amended): `normalize_record` passes `age_min`/`age_max` through from
the raw record unchanged and unvalidated, so a produced record satisfies
`age_min ≤ age_max` exactly when the raw source data already does; the
pipeline persists whatever the sources provide. -/
theorem age_bounds_passthrough :
    ∀ (raw : RawDict) (source now : String) (r : SpotRecord),
    normalize_record raw source now = .ok r →
    r.age_min = dictGetN raw "age_min" ∧ r.age_max = dictGetN raw "age_max" := by
  intro raw source now r h
  unfold normalize_record at h
  cases hc : normalize_cost_range (dictGetN raw "cost_range") with
  | error e => rw [hc] at h; exact absurd h (by simp)
  | ok c =>
    rw [hc] at h
    cases ht : normalize_tags (dictGet raw "tags" (.list [])) with
    | error e => rw [ht] at h; exact absurd h (by simp)
    | ok l =>
      rw [ht] at h
      injection h with h
      subst h
      exact ⟨rfl, rfl⟩

/-- C9 (witness): the passthrough theorem applied to the record normalized
from the empty raw dict. -/
theorem age_bounds_passthrough_witness :
    ({ id := .str "s:unknown", name := .str "", address := .str ""
       summary := .str "", lat := .none, lng := .none, official_url := .none
       cost_range := none, age_min := .none, age_max := .none, tags := []
       images := .list [], hours := .none, source := "s",
       last_seen := "t" } : SpotRecord).age_min = dictGetN [] "age_min" ∧
    ({ id := .str "s:unknown", name := .str "", address := .str ""
       summary := .str "", lat := .none, lng := .none, official_url := .none
       cost_range := none, age_min := .none, age_max := .none, tags := []
       images := .list [], hours := .none, source := "s",
       last_seen := "t" } : SpotRecord).age_max = dictGetN [] "age_max" :=
  age_bounds_passthrough [] "s" "t" _ rfl

/-- C3: the ingestion loop of `run` has no per-source exception isolation —
a failing first source aborts the whole run (no records are produced), even
though the same run with only the healthy `LocalSampleSource` succeeds. -/
theorem run_aborts_on_source_failure :
    run [{ name := "broken", fetchResult := .error (.otherError "boom") },
         localSampleSource] "T" = .error (.otherError "boom") ∧
    (run [localSampleSource] "T").isOk = true := by
  exact ⟨rfl, rfl⟩

/-! ## C8: distance calculator properties -/

lemma hav_a_self (la ln : ℝ) : hav_a la ln la ln = 0 := by
  unfold hav_a radians
  simp

lemma atan2_zero_one : atan2 0 1 = 0 := by
  unfold atan2
  rw [if_pos (by norm_num : (0 : ℝ) < 1)]
  simp [Real.arctan_zero]

lemma radians_neg_swap (x y : ℝ) : radians (x - y) = -radians (y - x) := by
  unfold radians; ring

lemma sin_sq_swap (x y : ℝ) :
    Real.sin (radians (x - y) / 2) ^ 2 = Real.sin (radians (y - x) / 2) ^ 2 := by
  rw [radians_neg_swap, neg_div, Real.sin_neg, neg_sq]

lemma hav_a_symm (la1 ln1 la2 ln2 : ℝ) :
    hav_a la1 ln1 la2 ln2 = hav_a la2 ln2 la1 ln1 := by
  unfold hav_a
  rw [sin_sq_swap la2 la1, sin_sq_swap ln2 ln1]
  ring

/-- C8: the great-circle distance is zero on identical coordinate pairs and
symmetric in its two coordinate pairs. -/
theorem haversine_zero_and_symmetric :
    (∀ la ln : ℝ, haversine_km la ln la ln = 0) ∧
    (∀ la1 ln1 la2 ln2 : ℝ,
      haversine_km la1 ln1 la2 ln2 = haversine_km la2 ln2 la1 ln1) := by
  constructor
  · intro la ln
    unfold haversine_km
    rw [hav_a_self, Real.sqrt_zero, sub_zero, Real.sqrt_one, atan2_zero_one, mul_zero]
  · intro la1 ln1 la2 ln2
    unfold haversine_km
    rw [hav_a_symm]

/-! ## C1: filter order-independence -/

/-- The predicate each filter stage applies (the identity stages filter by
the constantly-true predicate). -/
noncomputable def predOf (i : Nat) (c : Criteria) : Spot → Bool :=
  match i with
  | 0 =>
    match c.lat, c.lng with
    | some la, some ln => withinRadius la ln c.radius_km
    | _, _ => fun _ => true
  | 1 =>
    match c.q with
    | some q => if q.isEmpty then (fun _ => true) else queryPred q
    | none => fun _ => true
  | 2 =>
    match c.tags with
    | some ts => if ts.isEmpty then (fun _ => true) else tagsPred ts
    | none => fun _ => true
  | 3 =>
    match c.age with
    | some a => agePred a
    | none => fun _ => true
  | _ =>
    match c.cost_range with
    | some cr => if cr.isEmpty then (fun _ => true) else costPred cr
    | none => fun _ => true

lemma stage_filter (i : Nat) (c : Criteria) (items : List Spot) :
    stageOf i c items = items.filter (predOf i c) := by
  obtain ⟨clat, clng, crad, cq, ctags, cage, ccost, clim, coff⟩ := c
  match i with
  | 0 =>
    cases clat with
    | none => simp [stageOf, predOf, distStage, List.filter_true]
    | some la =>
      cases clng with
      | none => simp [stageOf, predOf, distStage, List.filter_true]
      | some ln => simp [stageOf, predOf, distStage]
  | 1 =>
    cases cq with
    | none => simp [stageOf, predOf, queryStage, List.filter_true]
    | some q =>
      cases hq : q.isEmpty <;> simp [stageOf, predOf, queryStage, hq, List.filter_true]
  | 2 =>
    cases ctags with
    | none => simp [stageOf, predOf, tagStage, List.filter_true]
    | some ts =>
      cases ht : ts.isEmpty <;> simp [stageOf, predOf, tagStage, ht, List.filter_true]
  | 3 =>
    cases cage with
    | none => simp [stageOf, predOf, ageStage, List.filter_true]
    | some a => simp [stageOf, predOf, ageStage]
  | n + 4 =>
    cases ccost with
    | none => simp [stageOf, predOf, costStage, List.filter_true]
    | some cr =>
      cases hc : cr.isEmpty <;> simp [stageOf, predOf, costStage, hc, List.filter_true]

lemma applyStages_filter (l : List Nat) (c : Criteria) (spots : List Spot) :
    applyStages l c spots = spots.filter (fun s => l.all (fun i => predOf i c s)) := by
  induction l generalizing spots with
  | nil => simp [applyStages, List.filter_true]
  | cons i t ih =>
    have h1 : applyStages (i :: t) c spots = applyStages t c (stageOf i c spots) := rfl
    rw [h1, stage_filter, ih, List.filter_filter]
    apply List.filter_congr
    intro x _
    simp [List.all_cons, Bool.and_comm]

lemma perm_all (l1 l2 : List Nat) (h : l1.Perm l2) (p : Nat → Bool) :
    l1.all p = l2.all p := by
  rw [Bool.eq_iff_iff]
  simp only [List.all_eq_true]
  constructor <;> intro ha x hx
  · exact ha x (h.mem_iff.mpr hx)
  · exact ha x (h.mem_iff.mp hx)

/-- C1: applying the five predicate filters of the spot search in any
permutation of the source order (0 = origin/radius, 1 = free-text query,
2 = tags, 3 = age, 4 = cost) yields the same matched sequence — hence the
same matched set — before pagination. -/
theorem filter_order_independence :
    ∀ (c : Criteria) (spots : List Spot) (l : List Nat),
    l.Perm [0, 1, 2, 3, 4] →
    applyStages l c spots = matched c spots := by
  intro c spots l h
  have hm : matched c spots = applyStages [0, 1, 2, 3, 4] c spots := rfl
  rw [applyStages_filter, hm, applyStages_filter]
  exact List.filter_congr fun x _ => perm_all l [0, 1, 2, 3, 4] h _

/-! Shared concrete fixtures for the witnesses. -/

/-- A criteria set with every filter disabled (the route-layer defaults). -/
def cAllNone : Criteria :=
  { lat := none, lng := none, radius_km := 5, q := none, tags := none
    age := none, cost_range := none, limit := 20, offset := 0 }

/-- A concrete spot row. -/
def spotW1 : Spot :=
  { id := "a", name := "Alpha Park", lat := 0, lng := 0
    address := "Addr A", summary := "Sum A", official_url := none
    cost_range := some "FREE", age_min := some 0, age_max := some 8
    tags := ["Outdoor"], images := [], hours := none }

/-- A second concrete spot row. -/
def spotW2 : Spot :=
  { id := "b", name := "Beta Museum", lat := 1, lng := 1
    address := "Addr B", summary := "Sum B", official_url := none
    cost_range := some "U1000", age_min := none, age_max := none
    tags := ["Indoor"], images := [], hours := none }

/-- C1 (witness): a concrete reversed-order application coincides with the
source-order matched sequence. -/
theorem filter_order_independence_witness :
    applyStages [4, 3, 2, 1, 0] cAllNone [spotW1, spotW2] =
      matched cAllNone [spotW1, spotW2] :=
  filter_order_independence cAllNone [spotW1, spotW2] [4, 3, 2, 1, 0] (by decide)

/-! ## C6: pagination applied last, as a slice -/

/-- C6: `limit`/`offset` are applied after all predicate filters as the slice
`[offset, offset + limit)` of the matched sequence; with `limit = 1` and
`offset = 0` over a two-element matched set exactly the first matched element
is returned, and an `offset` at or beyond the matched-set size yields the
empty sequence rather than an error. -/
theorem pagination_last_slice :
    (∀ (c : Criteria) (spots : List Spot),
      list_spots c spots = (((matched c spots).drop c.offset).take c.limit).map to_spot) ∧
    (∀ (c : Criteria) (spots : List Spot) (a b : Spot),
      matched c spots = [a, b] → c.limit = 1 → c.offset = 0 →
      list_spots c spots = [to_spot a]) ∧
    (∀ (c : Criteria) (spots : List Spot),
      (matched c spots).length ≤ c.offset → list_spots c spots = []) := by
  refine ⟨fun c spots => rfl, ?_, ?_⟩
  · intro c spots a b hm hl ho
    unfold list_spots
    rw [hm, hl, ho]
    rfl
  · intro c spots h
    unfold list_spots
    rw [List.drop_eq_nil_of_le h]
    simp

/-- C6 (witness): concrete two-spot searches with `limit = 1, offset = 0`
and with `offset = 5`. -/
theorem pagination_last_slice_witness :
    list_spots { cAllNone with limit := 1 } [spotW1, spotW2] = [to_spot spotW1] ∧
    list_spots { cAllNone with offset := 5 } [spotW1, spotW2] = [] := by
  constructor
  · exact pagination_last_slice.2.1 { cAllNone with limit := 1 }
      [spotW1, spotW2] spotW1 spotW2 rfl rfl rfl
  · exact pagination_last_slice.2.2 { cAllNone with offset := 5 } [spotW1, spotW2]
      (by have h : matched { cAllNone with offset := 5 } [spotW1, spotW2]
              = [spotW1, spotW2] := rfl
          rw [h]; decide)

/-! ## C10: distance filtering needs both coordinates -/

/-- C10: the origin/radius filter runs only when both `lat` and `lng` are
provided; with at most one of them present the matched sequence (and the
paged result) equals that of the same search with no origin at all, for any
`radius_km`. -/
theorem distance_filter_requires_both_coords :
    ∀ (c : Criteria) (spots : List Spot) (r : ℚ),
    (c.lat = none ∨ c.lng = none) →
    matched { c with lat := none, lng := none, radius_km := r } spots
        = matched c spots ∧
    list_spots { c with lat := none, lng := none, radius_km := r } spots
        = list_spots c spots := by
  intro c spots r h
  obtain ⟨clat, clng, crad, cq, ctags, cage, ccost, clim, coff⟩ := c
  have hd : distStage ⟨clat, clng, crad, cq, ctags, cage, ccost, clim, coff⟩ spots
      = spots := by
    rcases h with h | h
    · rw [show clat = none from h]
      rfl
    · rw [show clng = none from h]
      cases clat <;> rfl
  have hM : matched ⟨none, none, r, cq, ctags, cage, ccost, clim, coff⟩ spots
      = matched ⟨clat, clng, crad, cq, ctags, cage, ccost, clim, coff⟩ spots := by
    have hd0 : distStage ⟨none, none, r, cq, ctags, cage, ccost, clim, coff⟩ spots
        = spots := rfl
    unfold matched
    rw [hd0, hd]
    rfl
  refine ⟨hM, ?_⟩
  unfold list_spots
  rw [hM]

/-- C10 (witness): a search carrying only `lat` matches exactly like the
origin-free search, for a fresh radius. -/
theorem distance_filter_requires_both_coords_witness :
    matched { { cAllNone with lat := some 35 } with
                lat := none, lng := none, radius_km := 9 } [spotW1, spotW2]
      = matched { cAllNone with lat := some 35 } [spotW1, spotW2] :=
  (distance_filter_requires_both_coords { cAllNone with lat := some 35 }
    [spotW1, spotW2] 9 (Or.inr rfl)).1

/-! ## C4: deduplication -/

lemma isStrB_ex {v : PyVal} (h : isStrB v = true) : ∃ s, v = .str s := by
  cases v with
  | str s => exact ⟨s, rfl⟩
  | none => simp [isStrB] at h
  | bool b => simp [isStrB] at h
  | int n => simp [isStrB] at h
  | float q => simp [isStrB] at h
  | list xs => simp [isStrB] at h

lemma dedupeSpec_nil : dedupeSpecFirstWins [] = [] := by
  simp [dedupeSpecFirstWins]

lemma dedupeSpec_cons (r : SpotRecord) (rs : List SpotRecord) :
    dedupeSpecFirstWins (r :: rs)
      = r :: dedupeSpecFirstWins (rs.filter (fun r2 => !(specKey2 r2 == specKey2 r))) := by
  rw [dedupeSpecFirstWins]

lemma dedupeSpec_sublist : ∀ rs : List SpotRecord, (dedupeSpecFirstWins rs).Sublist rs := by
  have H : ∀ (n : Nat) (rs : List SpotRecord), rs.length ≤ n →
      (dedupeSpecFirstWins rs).Sublist rs := by
    intro n
    induction n with
    | zero =>
      intro rs h
      cases rs with
      | nil => rw [dedupeSpec_nil]
      | cons r t => simp at h
    | succ n ih =>
      intro rs h
      cases rs with
      | nil => rw [dedupeSpec_nil]
      | cons r t =>
        rw [dedupeSpec_cons]
        apply List.Sublist.cons₂
        have hlen : (t.filter (fun r2 => !(specKey2 r2 == specKey2 r))).length ≤ n := by
          have := List.length_filter_le (fun r2 => !(specKey2 r2 == specKey2 r)) t
          simp only [List.length_cons] at h
          omega
        exact (ih _ hlen).trans (List.filter_sublist t)
  intro rs
  exact H rs.length rs le_rfl

lemma dedupeAux_spec :
    ∀ (rs : List SpotRecord) (seen : List (String × String)),
    rs.all (fun r => isStrB r.name && isStrB r.address) = true →
    dedupeAux seen rs
      = .ok (dedupeSpecFirstWins (rs.filter (fun r => !seen.contains (specKey2 r)))) := by
  intro rs
  induction rs with
  | nil =>
    intro seen h
    simp [dedupeAux, dedupeSpec_nil]
  | cons r t ih =>
    intro seen h
    simp only [List.all_cons, Bool.and_eq_true] at h
    obtain ⟨⟨hn, ha⟩, ht⟩ := h
    obtain ⟨n, hns⟩ := isStrB_ex hn
    obtain ⟨a, has⟩ := isStrB_ex ha
    have hkey : specKey2 r = (pyLower (pyStrip n), pyLower (pyStrip a)) := by
      simp [specKey2, specKeyOf, hns, has]
    have hL : dedupeAux seen (r :: t)
        = (if seen.contains (specKey2 r) then dedupeAux seen t
           else
             match dedupeAux (specKey2 r :: seen) t with
             | .error e => .error e
             | .ok rest => .ok (r :: rest)) := by
      rw [hkey]
      simp [dedupeAux, strKey, hns, has]
    rw [hL]
    cases hc : seen.contains (specKey2 r) with
    | true =>
      rw [if_pos rfl, ih seen ht]
      have hcond : (!seen.contains (specKey2 r)) = false := by rw [hc]; rfl
      have hfc : (r :: t).filter (fun x => !seen.contains (specKey2 x))
          = t.filter (fun x => !seen.contains (specKey2 x)) := by
        rw [List.filter_cons, hcond, if_neg Bool.false_ne_true]
      rw [hfc]
    | false =>
      rw [if_neg Bool.false_ne_true, ih (specKey2 r :: seen) ht]
      have hcond : (!seen.contains (specKey2 r)) = true := by rw [hc]; rfl
      have hfc : (r :: t).filter (fun x => !seen.contains (specKey2 x))
          = r :: t.filter (fun x => !seen.contains (specKey2 x)) := by
        rw [List.filter_cons, hcond, if_pos rfl]
      have hff : t.filter (fun x => !(specKey2 r :: seen).contains (specKey2 x))
          = (t.filter (fun x => !seen.contains (specKey2 x))).filter
              (fun r2 => !(specKey2 r2 == specKey2 r)) := by
        rw [List.filter_filter]
        apply List.filter_congr
        intro x _
        rw [List.contains_cons, Bool.not_or]
      rw [hfc, dedupeSpec_cons, ← hff]

/-- C4: on record sequences whose `name` and `address` fields are strings (the
dataclass's declared shape), `dedupe` never raises and returns exactly the
spec's first-wins subsequence: first occurrence of each identity key
`(trim(name).lower(), trim(address).lower())` is kept in first-seen order and
every later record with an already-seen key is dropped. -/
theorem dedupe_first_wins :
    ∀ rs : List SpotRecord,
    rs.all (fun r => isStrB r.name && isStrB r.address) = true →
    dedupe rs = .ok (dedupeSpecFirstWins rs) ∧ (dedupeSpecFirstWins rs).Sublist rs := by
  intro rs h
  refine ⟨?_, dedupeSpec_sublist rs⟩
  have h0 : rs.filter
      (fun r => !(([] : List (String × String)).contains (specKey2 r))) = rs :=
    List.filter_true rs
  have hmain := dedupeAux_spec rs [] h
  rw [h0] at hmain
  exact hmain

/-- A record named `"Sample Park"`. -/
def recSampleA : SpotRecord :=
  { id := .str "1", name := .str "Sample Park", address := .str "Chiyoda-ku, Tokyo"
    summary := .str "", lat := .none, lng := .none, official_url := .none
    cost_range := some "FREE", age_min := .none, age_max := .none
    tags := [], images := .list [], hours := .none, source := "s1", last_seen := "t" }

/-- A record named `"sample park "` with the same address. -/
def recSampleB : SpotRecord :=
  { recSampleA with name := .str "sample park ", source := "s2" }

/-- C4 (witness): `"Sample Park"` and `"sample park "` at the same address
collapse to the record that appeared first. -/
theorem dedupe_first_wins_witness :
    dedupe [recSampleA, recSampleB] = .ok (dedupeSpecFirstWins [recSampleA, recSampleB]) ∧
    dedupeSpecFirstWins [recSampleA, recSampleB] = [recSampleA] := by
  constructor
  · exact (dedupe_first_wins [recSampleA, recSampleB] (by decide)).1
  · have h1 : ([recSampleB].filter (fun r2 => !(specKey2 r2 == specKey2 recSampleA)))
        = ([] : List SpotRecord) := rfl
    rw [dedupeSpec_cons, h1, dedupeSpec_nil]

/-! ## C5: favorite add — referential integrity and idempotence -/

lemma seed_favs (db : DBState) : (seed_spots db).favs = db.favs := by
  unfold seed_spots
  split <;> rfl

/-- C5: `add_favorite` seeds, then reports not-found and leaves the favorites
rows untouched when no spot carries the requested id; when a spot with the id
exists it reports success and afterwards exactly one `(user_id, spot_id)` row
exists — also when the pair was already present (at most one row per pair
being the documented table invariant). -/
theorem add_favorite_spec :
    ∀ (u s : String) (db : DBState),
    ((∀ sp ∈ (seed_spots db).spots, sp.id ≠ s) →
      add_favorite u s db = (false, seed_spots db) ∧
      (add_favorite u s db).2.favs = db.favs) ∧
    ((∃ sp ∈ (seed_spots db).spots, sp.id = s) →
      List.count (u, s) db.favs ≤ 1 →
      (add_favorite u s db).1 = true ∧
      List.count (u, s) (add_favorite u s db).2.favs = 1) := by
  intro u s db
  constructor
  · intro h
    have hf : (seed_spots db).spots.find? (fun sp => sp.id == s) = none := by
      rw [List.find?_eq_none]
      intro x hx hb
      exact h x hx (beq_iff_eq.mp hb)
    have h1 : add_favorite u s db = (false, seed_spots db) := by
      unfold add_favorite
      rw [hf]
    exact ⟨h1, by rw [h1]; exact seed_favs db⟩
  · rintro ⟨sp, hsp, hid⟩ hcount
    have hf : ((seed_spots db).spots.find? (fun x => x.id == s)).isSome = true :=
      List.find?_isSome.mpr ⟨sp, hsp, beq_iff_eq.mpr hid⟩
    cases hfind : (seed_spots db).spots.find? (fun x => x.id == s) with
    | none => rw [hfind] at hf; simp at hf
    | some sp0 =>
      have hunfold : add_favorite u s db =
          (if (seed_spots db).favs.contains (u, s) then (true, seed_spots db)
           else (true, { seed_spots db with
                          favs := (seed_spots db).favs ++ [(u, s)] })) := by
        unfold add_favorite
        rw [hfind]
      cases hcont : (seed_spots db).favs.contains (u, s) with
      | true =>
        rw [hunfold, hcont, if_pos rfl]
        refine ⟨rfl, ?_⟩
        have hm : (u, s) ∈ db.favs := by
          rw [seed_favs] at hcont
          exact List.elem_iff.mp hcont
        have hpos : 0 < List.count (u, s) db.favs := List.count_pos_iff.mpr hm
        have hfv : (seed_spots db).favs = db.favs := seed_favs db
        simp only [hfv]
        omega
      | false =>
        rw [hunfold, hcont, if_neg Bool.false_ne_true]
        refine ⟨rfl, ?_⟩
        have hnm : (u, s) ∉ db.favs := by
          intro hmem
          have hc2 : List.contains (seed_spots db).favs (u, s) = true := by
            rw [seed_favs]
            exact List.elem_iff.mpr hmem
          rw [hcont] at hc2
          exact Bool.false_ne_true hc2
        have h0 : List.count (u, s) db.favs = 0 := List.count_eq_zero.mpr hnm
        simp only [List.count_append, seed_favs, h0, List.count_singleton]
        simp

/-- The empty database (favorite calls on it operate on the seeded rows). -/
def dbEmpty : DBState := { spots := [], favs := [] }

/-- C5 (witness): on the freshly seeded database, adding a favorite for a
nonexistent spot id fails and changes nothing, while adding one for the
seeded spot `"tokyo-park-1"` succeeds leaving exactly one row. -/
theorem add_favorite_spec_witness :
    add_favorite "u1" "nope" dbEmpty = (false, seed_spots dbEmpty) ∧
    (add_favorite "u1" "tokyo-park-1" dbEmpty).1 = true ∧
    List.count ("u1", "tokyo-park-1")
      (add_favorite "u1" "tokyo-park-1" dbEmpty).2.favs = 1 := by
  refine ⟨((add_favorite_spec "u1" "nope" dbEmpty).1 (by decide)).1, ?_, ?_⟩
  · exact ((add_favorite_spec "u1" "tokyo-park-1" dbEmpty).2 (by decide) (by decide)).1
  · exact ((add_favorite_spec "u1" "tokyo-park-1" dbEmpty).2 (by decide) (by decide)).2
